import Mathlib

/-!
# Verification of the customer-intelligence engine

Shallow embedding of the intelligence-aggregation engine of
`stillrivercode/customer-intelligence`.  The executable artefacts of the
repository are embedded directly:

* the rate limiter of `workshop/resources/api-reference.md`,
* `IntelligentCache` and `RequestManager` of
  `workshop/resources/performance.md`,
* the sentiment / event / relevance classifiers of
  `workshop/specs/market-intelligence-feed.md`.

JavaScript `Map`s are modelled as insertion-ordered association lists
(`Map.set` updates an existing key in place and appends a fresh one, which is
exactly JavaScript's iteration-order contract), numbers as `ℚ` (or `Nat`
where the source only ever holds integers), and promise identity as a
natural-number token.  Components that the workshop material specifies but
whose implementation file is not part of the repository
(`HealthScoreCalculator`, the orchestrator's `assess`, the composed
`getOrFetch`) are modelled from the specification and marked as such in
their doc comments.
-/

namespace CustomerIntelligence

/-! ## Association-list model of a JavaScript `Map` -/

/-- `Map.get`: the value bound to `k`, scanning in insertion order. -/
def mapGet {β : Type _} (m : List (String × β)) (k : String) : Option β :=
  match m with
  | [] => none
  | (k₁, v) :: rest => if k₁ = k then some v else mapGet rest k

/-- `Map.set`: update the binding of `k` in place when present, append
otherwise (JavaScript `Map` keeps the original insertion position on
update). -/
def mapSet {β : Type _} (m : List (String × β)) (k : String) (v : β) :
    List (String × β) :=
  match m with
  | [] => [(k, v)]
  | (k₁, v₁) :: rest =>
    if k₁ = k then (k, v) :: rest else (k₁, v₁) :: mapSet rest k v

/-- `Map.delete`: remove the binding of `k` (all bindings of `k`; a real
`Map` holds at most one). -/
def mapDelete {β : Type _} (m : List (String × β)) (k : String) :
    List (String × β) :=
  match m with
  | [] => []
  | (k₁, v₁) :: rest =>
    if k₁ = k then mapDelete rest k else (k₁, v₁) :: mapDelete rest k

theorem mapGet_mapSet_self {β : Type _} (m : List (String × β)) (k : String)
    (v : β) : mapGet (mapSet m k v) k = some v := by
  induction m with
  | nil => simp [mapSet, mapGet]
  | cons p rest ih =>
    obtain ⟨k₁, v₁⟩ := p
    by_cases h : k₁ = k <;> simp [mapSet, mapGet, h, ih]

theorem mapGet_mapSet_ne {β : Type _} (m : List (String × β)) (k k₂ : String)
    (v : β) (hne : k ≠ k₂) : mapGet (mapSet m k v) k₂ = mapGet m k₂ := by
  induction m with
  | nil => simp [mapSet, mapGet, hne]
  | cons p rest ih =>
    obtain ⟨k₁, v₁⟩ := p
    by_cases h : k₁ = k
    · subst h
      simp [mapSet, mapGet, hne]
    · simp [mapSet, mapGet, h, ih]

theorem mapGet_mapDelete_self {β : Type _} (m : List (String × β))
    (k : String) : mapGet (mapDelete m k) k = none := by
  induction m with
  | nil => simp [mapDelete, mapGet]
  | cons p rest ih =>
    obtain ⟨k₁, v₁⟩ := p
    by_cases h : k₁ = k <;> simp [mapDelete, mapGet, h, ih]

theorem mapGet_mapDelete_ne {β : Type _} (m : List (String × β))
    (k k₂ : String) (hne : k ≠ k₂) :
    mapGet (mapDelete m k) k₂ = mapGet m k₂ := by
  induction m with
  | nil => simp [mapDelete]
  | cons p rest ih =>
    obtain ⟨k₁, v₁⟩ := p
    by_cases h : k₁ = k
    · subst h
      simp [mapDelete, mapGet, hne, ih]
    · simp [mapDelete, mapGet, h, ih]

/-! ## Text classification (`workshop/specs/market-intelligence-feed.md`)

`calculateRelevance(article, customer)` scores an article's relevance to a
customer.  JavaScript `String.prototype.includes` is modelled as
list-infix containment on the character data; `Date.now()` is an explicit
`now` parameter in epoch milliseconds; JavaScript numbers are modelled
as `ℚ`. -/

/-- Does `needle` occur at the very front of `hay`? -/
def charsStartWith : List Char → List Char → Bool
  | [], _ => true
  | _ :: _, [] => false
  | c :: cs, d :: ds => c == d && charsStartWith cs ds

/-- Does `needle` occur anywhere inside `hay`?  (`true` for the empty
needle, as in JavaScript.) -/
def charsInclude (hay needle : List Char) : Bool :=
  match hay with
  | [] => needle.isEmpty
  | c :: rest => charsStartWith needle (c :: rest) || charsInclude rest needle

/-- `a.includes(b)` on JavaScript strings. -/
def jsIncludes (a b : String) : Bool :=
  charsInclude a.data b.data

/-- One news article as consumed by the feed code: title, description,
publication instant (epoch milliseconds) and the event tags produced by
`classifyEvent`. -/
structure Article where
  title : String
  description : String
  publishedAt : Int
  eventType : List String

/-- The customer fields read by `calculateRelevance`. -/
structure FeedCustomer where
  name : String
  industry : String

/-- The event categories the source treats as high importance. -/
def highImportanceEvents : List String :=
  ["funding", "acquisition", "layoffs"]

/-- The additive relevance score of `calculateRelevance` *before* the final
`Math.min(1, score)` clamp: base `0.5`, `+0.3` for the customer name in the
title, `+0.2` for the name in the description, `+0.2` for the lower-cased
industry in the description, `+0.1` when the article is younger than 7
days, a further `+0.1` when younger than 1 day, and `+0.2` when tagged
with a high-importance event. -/
def relevanceRaw (article : Article) (customer : FeedCustomer) (now : Int) :
    ℚ :=
  let s₀ : ℚ := 0.5
  let s₁ := s₀ + (if jsIncludes article.title customer.name then 0.3 else 0)
  let s₂ := s₁ +
    (if jsIncludes article.description customer.name then 0.2 else 0)
  let s₃ := s₂ +
    (if charsInclude article.description.data
          (customer.industry.data.map Char.toLower) then 0.2
     else 0)
  let daysOld : ℚ := ((now - article.publishedAt : Int) : ℚ) / 86400000
  let s₄ := s₃ + (if daysOld < 7 then 0.1 else 0)
  let s₅ := s₄ + (if daysOld < 1 then 0.1 else 0)
  s₅ + (if article.eventType.any (fun e => highImportanceEvents.contains e)
        then 0.2 else 0)

/-- `calculateRelevance`: the raw additive score capped at `1.0`. -/
def calculateRelevance (article : Article) (customer : FeedCustomer)
    (now : Int) : ℚ :=
  min 1 (relevanceRaw article customer now)

theorem ite_nonneg_of_nonneg (c : Prop) [Decidable c] (q : ℚ) (h : 0 ≤ q) :
    0 ≤ if c then q else 0 := by
  split
  · exact h
  · exact le_refl 0

theorem le_add_bonus (x y q : ℚ) (c : Prop) [Decidable c] (hq : 0 ≤ q)
    (hxy : x ≤ y) : x ≤ y + (if c then q else 0) := by
  have := ite_nonneg_of_nonneg c q hq
  linarith

/-- Every conditional bonus of `calculateRelevance` is a non-negative
addition to the base of `0.5`. -/
theorem relevanceRaw_ge_base (article : Article) (customer : FeedCustomer)
    (now : Int) : (1 : ℚ)/2 ≤ relevanceRaw article customer now := by
  simp only [relevanceRaw]
  refine le_add_bonus _ _ _ _ (by norm_num) ?_
  refine le_add_bonus _ _ _ _ (by norm_num) ?_
  refine le_add_bonus _ _ _ _ (by norm_num) ?_
  refine le_add_bonus _ _ _ _ (by norm_num) ?_
  refine le_add_bonus _ _ _ _ (by norm_num) ?_
  refine le_add_bonus _ _ _ _ (by norm_num) ?_
  norm_num

/-- **C9.**  An article whose title contains the customer's exact name and
whose publication instant lies within the last 24 hours scores at least
`0.9` before clamping (the code in fact grants `+0.3` for the title and
`+0.1 + 0.1` for the sub-24-hour recency, for a raw score of at least
`1.0 ≥ 0.9`), and the value returned by `calculateRelevance` is clamped to
at most `1`. -/
theorem relevance_title_fresh_ge_ninety_percent (article : Article)
    (customer : FeedCustomer) (now : Int)
    (htitle : jsIncludes article.title customer.name = true)
    (hlo : 0 ≤ now - article.publishedAt)
    (hhi : now - article.publishedAt < 86400000) :
    (9 : ℚ)/10 ≤ relevanceRaw article customer now ∧
      calculateRelevance article customer now ≤ 1 := by
  constructor
  · have hd1 : ((now - article.publishedAt : Int) : ℚ) / 86400000 < 1 := by
      rw [div_lt_one (by norm_num)]
      exact_mod_cast hhi
    have hd7 : ((now - article.publishedAt : Int) : ℚ) / 86400000 < 7 :=
      lt_trans hd1 (by norm_num)
    have h₂ := ite_nonneg_of_nonneg
      (jsIncludes article.description customer.name = true) (0.2 : ℚ)
      (by norm_num)
    have h₃ := ite_nonneg_of_nonneg
      (charsInclude article.description.data
        (customer.industry.data.map Char.toLower) = true) (0.2 : ℚ)
      (by norm_num)
    simp only [relevanceRaw, htitle, eq_self_iff_true, if_true]
    rw [if_pos hd7, if_pos hd1]
    refine le_add_bonus _ _ _ _ (by norm_num) ?_
    have step : ((0.5 : ℚ) + 0.3) ≤
        ((0.5 : ℚ) + 0.3) + (if jsIncludes article.description
          customer.name = true then (0.2 : ℚ) else 0) +
        (if charsInclude article.description.data
          (customer.industry.data.map Char.toLower) = true then (0.2 : ℚ)
         else 0) := by
      have hb₂ := ite_nonneg_of_nonneg
        (jsIncludes article.description customer.name = true) (0.2 : ℚ)
        (by norm_num)
      have hb₃ := ite_nonneg_of_nonneg
        (charsInclude article.description.data
          (customer.industry.data.map Char.toLower) = true) (0.2 : ℚ)
        (by norm_num)
      linarith
    linarith
  · exact min_le_left 1 _

/-- **C10.**  The relevance score always lies in `[0.5, 1]`: the base is
`0.5`, every adjustment is a non-negative addition (so the raw score is
never below the base and the lower end of the `[0,1]` clamp is never
exercised), and an article with no name match, no industry keyword, no
recency and no high-importance event tag scores exactly `0.5`. -/
theorem relevance_bounds (article : Article) (customer : FeedCustomer)
    (now : Int) :
    (1 : ℚ)/2 ≤ calculateRelevance article customer now ∧
    calculateRelevance article customer now ≤ 1 ∧
    (1 : ℚ)/2 ≤ relevanceRaw article customer now ∧
    (jsIncludes article.title customer.name = false →
      jsIncludes article.description customer.name = false →
      charsInclude article.description.data
        (customer.industry.data.map Char.toLower) = false →
      (604800000 : Int) ≤ now - article.publishedAt →
      article.eventType.any (fun e => highImportanceEvents.contains e)
        = false →
      calculateRelevance article customer now = 1/2) := by
  have hbase := relevanceRaw_ge_base article customer now
  refine ⟨le_min (by norm_num) hbase, min_le_left 1 _, hbase, ?_⟩
  intro h₁ h₂ h₃ h₄ h₅
  have hd7 : ¬ ((now - article.publishedAt : Int) : ℚ) / 86400000 < 7 := by
    rw [not_lt, le_div_iff₀ (by norm_num)]
    calc (7 : ℚ) * 86400000 = ((604800000 : Int) : ℚ) := by norm_num
    _ ≤ _ := by exact_mod_cast h₄
  have hd1 : ¬ ((now - article.publishedAt : Int) : ℚ) / 86400000 < 1 :=
    fun h => hd7 (lt_trans h (by norm_num))
  have hraw : relevanceRaw article customer now = 1/2 := by
    simp only [relevanceRaw, h₁, h₂, h₃, h₅]
    rw [if_neg hd7, if_neg hd1]
    norm_num
  unfold calculateRelevance
  rw [hraw]
  norm_num

/-- Closed witness for the C9 theorem at a concrete article. -/
def articleC9 : Article :=
  { title := "TechVentures raises funding"
    description := "A growth round"
    publishedAt := 0
    eventType := ["funding"] }

/-- Concrete customer for the relevance witnesses. -/
def customerC9 : FeedCustomer :=
  { name := "TechVentures", industry := "Software" }

theorem relevance_title_fresh_ge_ninety_percent_witness :
    (9 : ℚ)/10 ≤ relevanceRaw articleC9 customerC9 1000 ∧
      calculateRelevance articleC9 customerC9 1000 ≤ 1 :=
  relevance_title_fresh_ge_ninety_percent articleC9 customerC9 1000
    (by decide) (by decide) (by decide)

/-- Closed witness article with no relevance signal at all. -/
def articleC10 : Article :=
  { title := "industry update"
    description := "a statement was made"
    publishedAt := 0
    eventType := [] }

theorem relevance_bounds_witness :
    calculateRelevance articleC10 customerC9 604800000 = 1/2 :=
  (relevance_bounds articleC10 customerC9 604800000).2.2.2
    (by decide) (by decide) (by decide) (by decide) (by decide)

/-! ## RateLimiter (`workshop/resources/api-reference.md`)

The limiter keeps a FIFO `queue` and a `processing` flag.  `process()`
shifts the head of the queue, `await`s the request function, and only
`delay = 1000 / requestsPerSecond` milliseconds *after the request
settles* clears `processing` and processes the next queued entry.  For a
backlog of queued operations the execution schedule is therefore
deterministic: an operation starting at time `t` with duration `d` is
followed by the next queued operation at time `t + d + delay`.

`rlRun delay t ops` returns, in execution order, each queued operation
paired with its start time.  The operation's `duration` is the time its
request function takes to settle (success or failure). -/

/-- A queued operation: an identifier (its submission position is the
queue order) and the time its request function takes to settle. -/
structure ROp where
  id : Nat
  duration : Nat

/-- The execution schedule of a backlog of queued operations: the head
starts immediately; each next operation starts `duration + delay`
milliseconds after the previous start (the source's `setTimeout(delay)`
runs only after `await requestFunction()` has settled). -/
def rlRun (delay : Nat) : Nat → List ROp → List (ROp × Nat)
  | _, [] => []
  | t, op :: rest => (op, t) :: rlRun delay (t + op.duration + delay) rest

theorem rlRun_map_fst (delay t : Nat) (ops : List ROp) :
    (rlRun delay t ops).map Prod.fst = ops := by
  induction ops generalizing t with
  | nil => rfl
  | cons op rest ih => simp [rlRun, ih]

theorem rlRun_chain (delay t : Nat) (ops : List ROp) :
    List.Chain' (fun a b : ROp × Nat => b.2 = a.2 + a.1.duration + delay)
      (rlRun delay t ops) := by
  induction ops generalizing t with
  | nil => exact List.chain'_nil
  | cons op rest ih =>
    rw [rlRun, List.chain'_cons']
    refine ⟨?_, ih _⟩
    intro b hb
    cases rest with
    | nil => simp [rlRun] at hb
    | cons op₂ rest₂ =>
      rw [rlRun] at hb
      simp only [List.head?_cons, Option.mem_def, Option.some.injEq] at hb
      rw [← hb]

/-- **C3 (counterexample).**  The start-to-start spacing of the rate
limiter is *not* independent of how long the previous operation takes:
with `delay = 1000` (rate 1/s), a first operation that settles after
500 ms pushes the second operation's start to 1500 ms, while a first
operation that settles instantly lets the second start at 1000 ms.  The
limiter waits `delay` after the previous operation *completes*, not after
it starts. -/
theorem rlRun_spacing_depends_on_duration :
    rlRun 1000 0 [⟨0, 500⟩, ⟨1, 0⟩] = [(⟨0, 500⟩, 0), (⟨1, 0⟩, 1500)] ∧
    rlRun 1000 0 [⟨0, 0⟩, ⟨1, 0⟩] = [(⟨0, 0⟩, 0), (⟨1, 0⟩, 1000)] ∧
    (1500 : Nat) ≠ 1000 := by
  refine ⟨rfl, rfl, by decide⟩

/-- **C3 (amended).**  Operations execute strictly in submission order
(FIFO), and each operation starts exactly
`previous duration + 1000/rate` milliseconds after the previous start —
hence always at least `1000/rate` after the previous start, but the
enforced spacing is between the previous operation's *completion* and the
next start, so a slow operation delays its successors by its full
duration. -/
theorem rlRun_fifo_and_spacing (delay t : Nat) (ops : List ROp) :
    (rlRun delay t ops).map Prod.fst = ops ∧
    List.Chain' (fun a b : ROp × Nat => b.2 = a.2 + a.1.duration + delay)
      (rlRun delay t ops) ∧
    List.Chain' (fun a b : ROp × Nat => a.2 + delay ≤ b.2)
      (rlRun delay t ops) := by
  refine ⟨rlRun_map_fst delay t ops, rlRun_chain delay t ops, ?_⟩
  refine List.Chain'.imp ?_ (rlRun_chain delay t ops)
  intro a b hab
  omega

/-! ## IntelligentCache (`workshop/resources/performance.md`)

TTL-keyed store with LRU eviction.  `cache` maps keys to
`{data, expiry}` records (the source also stores a `size` estimate that
only feeds `getStats` and is not modelled); `accessTimes` maps keys to
the instant of their last access.  Times are epoch milliseconds
(`Date.now()` is an explicit `now` parameter). -/

/-- One stored cache entry: payload and absolute expiry instant. -/
structure CacheItem (V : Type _) where
  data : V
  expiry : Nat
  deriving DecidableEq

/-- The `IntelligentCache` state. -/
structure IntelligentCache (V : Type _) where
  cache : List (String × CacheItem V)
  accessTimes : List (String × Nat)
  maxSize : Nat
  deriving DecidableEq

/-- The scan of `evictLRU`: fold over `accessTimes` in iteration order
keeping the entry with the strictly smallest time (on ties the earlier
entry wins, as the source compares with `<`). -/
def lruFold (acc : Option (String × Nat)) :
    List (String × Nat) → Option (String × Nat)
  | [] => acc
  | p :: rest =>
    lruFold
      (match acc with
       | none => some p
       | some q => if p.2 < q.2 then some p else some q) rest

/-- The oldest-accessed entry, as `evictLRU` computes it
(`oldestKey`/`oldestTime` after the loop). -/
def lruOldest (ats : List (String × Nat)) : Option (String × Nat) :=
  lruFold none ats

/-- `delete(key)`: drop the key from both maps. -/
def cacheDelete {V : Type _} (c : IntelligentCache V) (k : String) :
    IntelligentCache V :=
  { c with cache := mapDelete c.cache k
           accessTimes := mapDelete c.accessTimes k }

/-- `evictLRU()`: delete the oldest-accessed key.  The source guards the
deletion with `if (oldestKey)`, which is falsy both for `null` (empty
map) and for the empty-string key, so an empty-string key is never
evicted. -/
def evictLRU {V : Type _} (c : IntelligentCache V) : IntelligentCache V :=
  match lruOldest c.accessTimes with
  | none => c
  | some (k, _) => if k = "" then c else cacheDelete c k

/-- `get(key)`: `null` on a miss; on an expired entry delete it and
return `null`; on a live hit refresh the key's access time (LRU recency)
and return the payload.  (`Date.now() > item.expiry` is `item.expiry <
now`.) -/
def cacheGet {V : Type _} (c : IntelligentCache V) (k : String)
    (now : Nat) : Option V × IntelligentCache V :=
  match mapGet c.cache k with
  | none => (none, c)
  | some item =>
    if item.expiry < now then (none, cacheDelete c k)
    else (some item.data,
          { c with accessTimes := mapSet c.accessTimes k now })

/-- `set(key, data, ttl)`: evict first when the store is at (or past)
capacity, then write the entry with absolute expiry `now + ttl` and
record an access at `now`. -/
def cacheSet {V : Type _} (c : IntelligentCache V) (k : String) (v : V)
    (ttl now : Nat) : IntelligentCache V :=
  let c₁ := if c.maxSize ≤ c.cache.length then evictLRU c else c
  { c₁ with cache := mapSet c₁.cache k ⟨v, now + ttl⟩
            accessTimes := mapSet c₁.accessTimes k now }

theorem lruFold_isSome_of_acc (l : List (String × Nat))
    (q : String × Nat) : (lruFold (some q) l).isSome = true := by
  induction l generalizing q with
  | nil => rfl
  | cons p rest ih =>
    simp only [lruFold]
    split
    · exact ih _
    · exact ih _

theorem lruOldest_isSome (ats : List (String × Nat)) (h : ats ≠ []) :
    (lruOldest ats).isSome = true := by
  cases ats with
  | nil => exact absurd rfl h
  | cons p rest => exact lruFold_isSome_of_acc rest p

theorem lruFold_mem (l : List (String × Nat))
    (acc : Option (String × Nat)) (p : String × Nat)
    (h : lruFold acc l = some p) : p ∈ l ∨ acc = some p := by
  induction l generalizing acc with
  | nil => exact Or.inr h
  | cons q rest ih =>
    simp only [lruFold] at h
    rcases ih _ h with hmem | hacc
    · exact Or.inl (List.mem_cons_of_mem q hmem)
    · cases acc with
      | none =>
        simp only at hacc
        rw [← Option.some_inj.mp hacc]
        exact Or.inl (List.mem_cons_self q rest)
      | some r =>
        simp only at hacc
        by_cases hlt : q.2 < r.2
        · rw [if_pos hlt] at hacc
          rw [← Option.some_inj.mp hacc]
          exact Or.inl (List.mem_cons_self q rest)
        · rw [if_neg hlt] at hacc
          exact Or.inr hacc

theorem lruFold_min (l : List (String × Nat))
    (acc : Option (String × Nat)) (p : String × Nat)
    (h : lruFold acc l = some p) :
    (∀ q ∈ l, p.2 ≤ q.2) ∧ (∀ r, acc = some r → p.2 ≤ r.2) := by
  induction l generalizing acc with
  | nil =>
    simp only [lruFold] at h
    refine ⟨fun q hq => absurd hq (List.not_mem_nil q), fun r hr => ?_⟩
    rw [hr] at h
    rw [← Option.some_inj.mp h]
  | cons q rest ih =>
    simp only [lruFold] at h
    obtain ⟨hrest, hacc⟩ := ih _ h
    cases acc with
    | none =>
      have hq : p.2 ≤ q.2 := hacc q rfl
      refine ⟨fun q₂ hq₂ => ?_, fun r hr => by cases hr⟩
      rcases List.mem_cons.mp hq₂ with rfl | hmem
      · exact hq
      · exact hrest _ hmem
    | some r =>
      by_cases hlt : q.2 < r.2
      · have hq : p.2 ≤ q.2 := hacc q (by simp [hlt])
        refine ⟨fun q₂ hq₂ => ?_, fun r₂ hr₂ => ?_⟩
        · rcases List.mem_cons.mp hq₂ with rfl | hmem
          · exact hq
          · exact hrest _ hmem
        · rw [← Option.some_inj.mp hr₂]
          exact le_trans hq (le_of_lt hlt)
      · have hr : p.2 ≤ r.2 := hacc r (by simp [hlt])
        refine ⟨fun q₂ hq₂ => ?_, fun r₂ hr₂ => ?_⟩
        · rcases List.mem_cons.mp hq₂ with rfl | hmem
          · exact le_trans hr (Nat.le_of_not_lt hlt)
          · exact hrest _ hmem
        · rw [← Option.some_inj.mp hr₂]
          exact hr

theorem mapGet_isSome_of_mem {β : Type _} (m : List (String × β))
    (p : String × β) (h : p ∈ m) : (mapGet m p.1).isSome = true := by
  induction m with
  | nil => cases h
  | cons q rest ih =>
    by_cases hq : q.1 = p.1
    · simp [mapGet, hq]
    · rcases List.mem_cons.mp h with rfl | hmem
      · exact absurd rfl hq
      · simp only [mapGet, if_neg hq]
        exact ih hmem

theorem mapGet_none_iff_keys {β γ : Type _} (m : List (String × β))
    (m₂ : List (String × γ)) (h : m.map Prod.fst = m₂.map Prod.fst)
    (k : String) : mapGet m k = none ↔ mapGet m₂ k = none := by
  induction m generalizing m₂ with
  | nil =>
    cases m₂ with
    | nil => simp [mapGet]
    | cons q rest => cases h
  | cons p rest ih =>
    cases m₂ with
    | nil => cases h
    | cons q rest₂ =>
      simp only [List.map_cons, List.cons.injEq] at h
      obtain ⟨hfst, htail⟩ := h
      by_cases hk : p.1 = k
      · have hk₂ : q.1 = k := hfst ▸ hk
        simp [mapGet, hk, hk₂]
      · have hk₂ : ¬ q.1 = k := fun hq => hk (hfst ▸ hq)
        simp only [mapGet, if_neg hk, if_neg hk₂]
        exact ih rest₂ htail

/-- Replace every stored entry's expiry (and nothing else): the tool for
stating that eviction is independent of TTLs. -/
def remapExpiry {V : Type _} (c : IntelligentCache V)
    (f : CacheItem V → Nat) : IntelligentCache V :=
  { c with cache := c.cache.map (fun p => (p.1, ⟨p.2.data, f p.2⟩)) }

theorem mapDelete_map {β γ : Type _} (g : β → γ) (m : List (String × β))
    (k : String) :
    mapDelete (m.map (fun p => (p.1, g p.2))) k
      = (mapDelete m k).map (fun p => (p.1, g p.2)) := by
  induction m with
  | nil => rfl
  | cons p rest ih => by_cases h : p.1 = k <;> simp [mapDelete, h, ih]

/-- The eviction step commutes with any rewriting of the stored expiry
times: which key gets evicted is decided by `accessTimes` alone. -/
theorem evictLRU_remapExpiry {V : Type _} (c : IntelligentCache V)
    (f : CacheItem V → Nat) :
    evictLRU (remapExpiry c f) = remapExpiry (evictLRU c) f := by
  have hats : (remapExpiry c f).accessTimes = c.accessTimes := rfl
  cases hl : lruOldest c.accessTimes with
  | none => simp [evictLRU, hats, hl]
  | some p =>
    obtain ⟨k, t⟩ := p
    by_cases hk : k = ""
    · simp [evictLRU, hats, hl, hk]
    · simp only [evictLRU, hats, hl, if_neg hk]
      simp only [cacheDelete, remapExpiry]
      simp only [IntelligentCache.mk.injEq, and_true, true_and]
      exact mapDelete_map
        (fun item : CacheItem V => CacheItem.mk item.data (f item)) c.cache k

/-- **C8 (amended).**  At (or past) capacity, `set` of a fresh key first
evicts the key `e` whose recorded access time is minimal over all entries
— a choice made from `accessTimes` alone, independent of any stored
expiry — *provided `e` is not the empty string* (the source's
`if (oldestKey)` guard treats an empty-string key like "nothing to
evict"); the new entry is written with expiry `now + ttl` and an access
record at `now`; a live `get` refreshes the key's access time; and the
eviction decision commutes with arbitrary rewriting of expiries. -/
theorem intelligentCache_lru {V : Type _} (c : IntelligentCache V)
    (k : String) (v : V) (ttl now : Nat)
    (hcap : c.maxSize ≤ c.cache.length)
    (hwf : c.cache.map Prod.fst = c.accessTimes.map Prod.fst)
    (hfresh : mapGet c.cache k = none)
    (hne : c.accessTimes ≠ []) :
    ∃ e t, lruOldest c.accessTimes = some (e, t) ∧
      (e, t) ∈ c.accessTimes ∧
      (∀ q ∈ c.accessTimes, t ≤ q.2) ∧
      (e ≠ "" → mapGet (cacheSet c k v ttl now).cache e = none) ∧
      mapGet (cacheSet c k v ttl now).cache k = some ⟨v, now + ttl⟩ ∧
      mapGet (cacheSet c k v ttl now).accessTimes k = some now ∧
      (∀ f : CacheItem V → Nat,
        evictLRU (remapExpiry c f) = remapExpiry (evictLRU c) f) ∧
      (∀ (k₂ : String) (now₂ : Nat) (item : CacheItem V),
        mapGet c.cache k₂ = some item → ¬ item.expiry < now₂ →
        (cacheGet c k₂ now₂).1 = some item.data ∧
        (cacheGet c k₂ now₂).2.accessTimes
          = mapSet c.accessTimes k₂ now₂) := by
  obtain ⟨⟨e, t⟩, he⟩ :=
    Option.isSome_iff_exists.mp (lruOldest_isSome c.accessTimes hne)
  have hmem : (e, t) ∈ c.accessTimes := by
    rcases lruFold_mem c.accessTimes none (e, t) he with h | h
    · exact h
    · cases h
  have hmin : ∀ q ∈ c.accessTimes, t ≤ q.2 :=
    (lruFold_min c.accessTimes none (e, t) he).1
  have hesome : ¬ mapGet c.accessTimes e = none := by
    have hs := mapGet_isSome_of_mem c.accessTimes (e, t) hmem
    intro hno
    rw [hno] at hs
    cases hs
  have hcachee : ¬ mapGet c.cache e = none := fun hno =>
    hesome ((mapGet_none_iff_keys c.cache c.accessTimes hwf e).mp hno)
  have hek : e ≠ k := fun heq => hcachee (heq ▸ hfresh)
  refine ⟨e, t, he, hmem, hmin, ?_, ?_, ?_, evictLRU_remapExpiry c, ?_⟩
  · intro hne₂
    simp only [cacheSet, if_pos hcap]
    rw [mapGet_mapSet_ne _ k e _ (Ne.symm hek)]
    simp only [evictLRU, he, if_neg hne₂]
    exact mapGet_mapDelete_self c.cache e
  · simp only [cacheSet, if_pos hcap]
    exact mapGet_mapSet_self _ k _
  · simp only [cacheSet, if_pos hcap]
    exact mapGet_mapSet_self _ k _
  · intro k₂ now₂ item hk₂ hexp
    simp [cacheGet, hk₂, hexp]

/-- The empty cache with capacity 2 used by the C8 counterexample. -/
def cacheCE₀ : IntelligentCache Nat :=
  { cache := [], accessTimes := [], maxSize := 2 }

/-- Two writes fill `cacheCE₀` to capacity; the key `""` is the
least-recently-accessed entry. -/
def cacheCE₁ : IntelligentCache Nat :=
  cacheSet (cacheSet cacheCE₀ "" 7 100 1) "a" 8 100 2

/-- **C8 (counterexample).**  At capacity, writing the fresh key `"b"`
is supposed to evict the least-recently-used entry — here the key `""`,
accessed at time 1.  Because the source guards eviction with
`if (oldestKey)` and the empty string is falsy, nothing is evicted: the
store grows to 3 entries past its capacity of 2 and the entry `""` is
still present. -/
theorem intelligentCache_lru_counterexample :
    cacheCE₁.cache.length = 2 ∧
    cacheCE₁.maxSize = 2 ∧
    mapGet cacheCE₁.cache "b" = none ∧
    lruOldest cacheCE₁.accessTimes = some ("", 1) ∧
    (cacheSet cacheCE₁ "b" 9 100 3).cache.length = 3 ∧
    mapGet (cacheSet cacheCE₁ "b" 9 100 3).cache ""
      = some { data := 7, expiry := 101 } := by
  refine ⟨rfl, rfl, rfl, rfl, rfl, rfl⟩

/-- Concrete cache at capacity with non-empty keys for the C8 witness. -/
def cacheW : IntelligentCache Nat :=
  { cache := [("x", { data := 5, expiry := 10 }),
              ("y", { data := 6, expiry := 20 })]
    accessTimes := [("x", 1), ("y", 2)]
    maxSize := 2 }

theorem intelligentCache_lru_witness :
    ∃ e t, lruOldest cacheW.accessTimes = some (e, t) ∧
      (e, t) ∈ cacheW.accessTimes ∧
      (∀ q ∈ cacheW.accessTimes, t ≤ q.2) ∧
      (e ≠ "" → mapGet (cacheSet cacheW "z" 9 100 3).cache e = none) ∧
      mapGet (cacheSet cacheW "z" 9 100 3).cache "z"
        = some { data := 9, expiry := 103 } ∧
      mapGet (cacheSet cacheW "z" 9 100 3).accessTimes "z" = some 3 ∧
      (∀ f : CacheItem Nat → Nat,
        evictLRU (remapExpiry cacheW f) = remapExpiry (evictLRU cacheW) f) ∧
      (∀ (k₂ : String) (now₂ : Nat) (item : CacheItem Nat),
        mapGet cacheW.cache k₂ = some item → ¬ item.expiry < now₂ →
        (cacheGet cacheW k₂ now₂).1 = some item.data ∧
        (cacheGet cacheW k₂ now₂).2.accessTimes
          = mapSet cacheW.accessTimes k₂ now₂) :=
  intelligentCache_lru cacheW "z" 9 100 3 (by decide) (by decide)
    (by decide) (by decide)

/-! ## RequestManager (`workshop/resources/performance.md`)

Request deduplication: `fetch(url, options)` computes a request key; if a
promise for that key is already in `pendingRequests` the caller gets
*that* promise, otherwise `makeRequest` is invoked, the new promise is
stored under the key, and a `.finally` handler deletes the key once the
promise settles.  All of this happens synchronously on the event loop
before any suspension, so the steps below are atomic.  Promises are
modelled by numeric tokens: callers that receive the same token await the
same underlying `makeRequest` invocation.  `invocations` counts the calls
made to `makeRequest` (the upstream calls). -/

/-- The `RequestManager` state. -/
structure RequestManager where
  pendingRequests : List (String × Nat)
  nextId : Nat
  invocations : Nat

/-- `fetch(url, options)` up to its first suspension point: return the
in-flight promise token for the key when one exists; otherwise invoke
`makeRequest` (one more upstream call), record the fresh promise under
the key, and return it. -/
def rmFetch (s : RequestManager) (key : String) : Nat × RequestManager :=
  match mapGet s.pendingRequests key with
  | some id => (id, s)
  | none =>
    (s.nextId,
     { pendingRequests := mapSet s.pendingRequests key s.nextId
       nextId := s.nextId + 1
       invocations := s.invocations + 1 })

/-- The `.finally(() => this.pendingRequests.delete(key))` cleanup that
runs when the promise for `key` settles (fulfilled or rejected). -/
def rmSettle (s : RequestManager) (key : String) : RequestManager :=
  { s with pendingRequests := mapDelete s.pendingRequests key }

/-- **C2.**  Two `fetch` calls for the same key, the second issued while
the first's request is still in flight (no settle in between), invoke the
upstream `makeRequest` exactly once, and both callers receive the very
same pending promise; the second call does not change the state at
all. -/
theorem requestManager_coalesces (s : RequestManager) (key : String)
    (hfree : mapGet s.pendingRequests key = none) :
    (rmFetch (rmFetch s key).2 key).1 = (rmFetch s key).1 ∧
    (rmFetch (rmFetch s key).2 key).2 = (rmFetch s key).2 ∧
    (rmFetch (rmFetch s key).2 key).2.invocations = s.invocations + 1 ∧
    mapGet (rmFetch s key).2.pendingRequests key
      = some (rmFetch s key).1 := by
  simp [rmFetch, hfree, mapGet_mapSet_self]

/-- Concrete manager for the C2 witness. -/
def rmW : RequestManager :=
  { pendingRequests := [], nextId := 0, invocations := 0 }

theorem requestManager_coalesces_witness :
    (rmFetch (rmFetch rmW "GET:/api/customer/123").2
        "GET:/api/customer/123").1
      = (rmFetch rmW "GET:/api/customer/123").1 ∧
    (rmFetch (rmFetch rmW "GET:/api/customer/123").2
        "GET:/api/customer/123").2
      = (rmFetch rmW "GET:/api/customer/123").2 ∧
    (rmFetch (rmFetch rmW "GET:/api/customer/123").2
        "GET:/api/customer/123").2.invocations = rmW.invocations + 1 ∧
    mapGet (rmFetch rmW "GET:/api/customer/123").2.pendingRequests
        "GET:/api/customer/123"
      = some (rmFetch rmW "GET:/api/customer/123").1 :=
  requestManager_coalesces rmW "GET:/api/customer/123" rfl

/-! ## getOrFetch — the composed cache-and-coalesce operation

Modelled from the spec: `CacheStore.getOrFetch(key, ttl, fetchFn)` has no
implementation file in the repository — the repository provides its two
halves (`IntelligentCache` for TTL storage and `RequestManager` for
in-flight coalescing, both in `workshop/resources/performance.md`).  The
composition below follows the spec's words: check the cache; else join an
in-flight fetch; else invoke the fetch function and set the in-flight
marker before yielding; on success store the value with absolute expiry
`now + ttl` and clear the marker; on failure cache nothing and clear the
marker so a later call may retry. -/

/-- Composed state: the TTL store plus the in-flight bookkeeping. -/
structure FetchState (V : Type _) where
  cache : IntelligentCache V
  pending : List (String × Nat)
  nextId : Nat
  invocations : Nat

/-- What a `getOrFetch` caller observes at its first suspension point. -/
inductive FetchStart (V : Type _) where
  | cached (v : V)
  | awaitPending (id : Nat)
  | started (id : Nat)

/-- `getOrFetch(key, ttl, fetchFn)` up to its first suspension point. -/
def getOrFetchStart {V : Type _} (s : FetchState V) (k : String)
    (now : Nat) : FetchStart V × FetchState V :=
  match cacheGet s.cache k now with
  | (some v, c₁) => (.cached v, { s with cache := c₁ })
  | (none, c₁) =>
    match mapGet s.pending k with
    | some id => (.awaitPending id, { s with cache := c₁ })
    | none =>
      (.started s.nextId,
       { cache := c₁
         pending := mapSet s.pending k s.nextId
         nextId := s.nextId + 1
         invocations := s.invocations + 1 })

/-- The continuation of `getOrFetch` once the fetch settles: store on
success (absolute expiry `now + ttl`), never store on failure, clear the
in-flight marker either way. -/
def getOrFetchSettle {V E : Type _} (s : FetchState V) (k : String)
    (ttl now : Nat) (outcome : Except E V) : FetchState V :=
  match outcome with
  | .ok v =>
    { s with cache := cacheSet s.cache k v ttl now
             pending := mapDelete s.pending k }
  | .error _ => { s with pending := mapDelete s.pending k }

/-- **C7.**  When a fetch for `k` fails, the cache is left untouched (in
particular nothing is stored under `k`) and the in-flight marker for `k`
is cleared, so a subsequent `getOrFetch` of a key with no cached value
starts a fresh invocation of the fetch function; when the fetch
succeeds, the value is stored under `k` with absolute expiry
`now + ttl` (and the marker is cleared as well). -/
theorem getOrFetch_failure_success {V E : Type _} (s : FetchState V)
    (k : String) (ttl now now₂ : Nat) (e : E) (v : V) :
    (getOrFetchSettle s k ttl now (Except.error e)).cache = s.cache ∧
    mapGet (getOrFetchSettle s k ttl now (Except.error e)).pending k
      = none ∧
    (mapGet s.cache.cache k = none →
      (getOrFetchStart (getOrFetchSettle s k ttl now (Except.error e)) k
          now₂).1 = FetchStart.started s.nextId ∧
      (getOrFetchStart (getOrFetchSettle s k ttl now (Except.error e)) k
          now₂).2.invocations = s.invocations + 1) ∧
    mapGet (getOrFetchSettle s k ttl now
        (Except.ok v : Except E V)).cache.cache k
      = some { data := v, expiry := now + ttl } ∧
    mapGet (getOrFetchSettle s k ttl now
        (Except.ok v : Except E V)).pending k
      = none := by
  refine ⟨rfl, mapGet_mapDelete_self s.pending k, ?_, ?_, ?_⟩
  · intro hmiss
    constructor
    · simp [getOrFetchStart, getOrFetchSettle, cacheGet, hmiss,
        mapGet_mapDelete_self]
    · simp [getOrFetchStart, getOrFetchSettle, cacheGet, hmiss,
        mapGet_mapDelete_self]
  · simp only [getOrFetchSettle, cacheSet]
    exact mapGet_mapSet_self _ k _
  · exact mapGet_mapDelete_self s.pending k

/-- Concrete composed state for the C7 witness. -/
def fetchW : FetchState Nat :=
  { cache := { cache := [], accessTimes := [], maxSize := 100 }
    pending := [("news?q=TechVentures", 0)]
    nextId := 1
    invocations := 1 }

theorem getOrFetch_failure_success_witness :
    (getOrFetchSettle fetchW "news?q=TechVentures" 900000 50
        (Except.error "timeout")).cache = fetchW.cache ∧
    mapGet (getOrFetchSettle fetchW "news?q=TechVentures" 900000 50
        (Except.error "timeout")).pending "news?q=TechVentures" = none ∧
    (mapGet fetchW.cache.cache "news?q=TechVentures" = none →
      (getOrFetchStart (getOrFetchSettle fetchW "news?q=TechVentures"
          900000 50 (Except.error "timeout")) "news?q=TechVentures"
          60).1 = FetchStart.started fetchW.nextId ∧
      (getOrFetchStart (getOrFetchSettle fetchW "news?q=TechVentures"
          900000 50 (Except.error "timeout")) "news?q=TechVentures"
          60).2.invocations = fetchW.invocations + 1) ∧
    mapGet (getOrFetchSettle fetchW "news?q=TechVentures" 900000 50
        (Except.ok 7 : Except String Nat)).cache.cache
        "news?q=TechVentures"
      = some { data := 7, expiry := 900050 } ∧
    mapGet (getOrFetchSettle fetchW "news?q=TechVentures" 900000 50
        (Except.ok 7 : Except String Nat)).pending "news?q=TechVentures"
      = none :=
  getOrFetch_failure_success fetchW "news?q=TechVentures" 900000 50 60
    "timeout" 7

/-! ## HealthScoreCalculator

Modelled from the spec: `HealthScoreCalculator.compute` — the workshop
prompts generation of `src/utils/healthCalculator.js`, which is not part
of the repository; the factor bands, weights, missing-data policy, trend
and confidence rules below follow the specification (§4.5) and the
in-repository factor tables of
`workshop/specs/customer-health-widget.md`.  Scores are `ℚ` (JavaScript
numbers); each factor weighs `0.25`. -/

/-- Classified sentiment of one news article. -/
inductive Sentiment where
  | positive
  | neutral
  | negative
  deriving DecidableEq

/-- Customer tier. -/
inductive Tier where
  | enterprise
  | growth
  | startup
  deriving DecidableEq

/-- Confidence of a health score. -/
inductive Confidence where
  | high
  | medium
  | low
  deriving DecidableEq

/-- Trend of a health score. -/
inductive Trend where
  | improving
  | stable
  | declining
  deriving DecidableEq

/-- Whois payload: domain age in years and registration status. -/
structure WhoisData where
  ageYears : ℚ
  active : Bool

/-- Website-status payload: HTTP status and certificate state
(`valid` / `invalid` / certificate absent). -/
structure WebsiteData where
  httpStatus : Nat
  certValid : Option Bool

/-- News payload: the classified sentiment of each recent article. -/
structure NewsData where
  sentiments : List Sentiment

/-- The customer record fields the calculator reads.  `lastActivityDays`
is days since last activity (`none` when the record lacks one). -/
structure MCustomer where
  tier : Tier
  lastActivityDays : Option Nat

/-- Normalized provider results handed to the calculator; `none` marks a
source that is absent or errored. -/
structure ProviderData where
  whois : Option WhoisData
  website : Option WebsiteData
  news : Option NewsData

/-- Domain Stability: age bands `<1y→20, 1–3y→50, 3–5y→80, ≥5y→100`,
gated by registration status (inactive overrides to 0). -/
def domainScore (w : WhoisData) : ℚ :=
  if w.active = false then 0
  else if w.ageYears < 1 then 20
  else if w.ageYears < 3 then 50
  else if w.ageYears < 5 then 80
  else 100

/-- Website Health: the average of availability (HTTP 200 → 100, else 0)
and certificate validity (valid → 100, invalid → 50, absent → 0). -/
def websiteScore (w : WebsiteData) : ℚ :=
  ((if w.httpStatus = 200 then (100 : ℚ) else 0) +
   (match w.certValid with
    | some true => 100
    | some false => 50
    | none => 0)) / 2

/-- Net sentiment: positive minus negative article count. -/
def netSentiment (l : List Sentiment) : Int :=
  (l.count Sentiment.positive : Int) - (l.count Sentiment.negative : Int)

/-- Market Presence: article-count bands `0→10, 1–3→40, 4–9→80, ≥10→100`
adjusted ±20 for net positive/negative sentiment, clamped to
`[0, 100]`. -/
def marketScore (n : NewsData) : ℚ :=
  let c := n.sentiments.length
  let base : ℚ := if c = 0 then 10 else if c ≤ 3 then 40
                  else if c < 10 then 80 else 100
  let adj : ℚ :=
    if 0 < netSentiment n.sentiments then base + 20
    else if netSentiment n.sentiments < 0 then base - 20
    else base
  min 100 (max 0 adj)

/-- Tier multiplier: enterprise 1.2, growth 1.0, startup 0.8. -/
def tierFactor : Tier → ℚ
  | Tier.enterprise => 6/5
  | Tier.growth => 1
  | Tier.startup => 4/5

/-- Engagement Level: recency bands `<7d→100, 7–30d→70, 30–90d→40,
>90d→10` times the tier multiplier, clamped to `[0, 100]`. -/
def engagementScore (days : Nat) (tier : Tier) : ℚ :=
  let base : ℚ := if days < 7 then 100 else if days ≤ 30 then 70
                  else if days ≤ 90 then 40 else 10
  min 100 (max 0 (base * tierFactor tier))

/-- One weighted factor of the health score. -/
structure FactorScore where
  score : ℚ
  weight : ℚ

/-- The four-factor breakdown — a `HealthScore` structurally always
carries exactly four factors. -/
structure Breakdown where
  domain : FactorScore
  website : FactorScore
  market : FactorScore
  engagement : FactorScore

/-- The calculator's output. -/
structure HealthScore where
  overall : ℚ
  trend : Trend
  breakdown : Breakdown
  confidence : Confidence

/-- Confidence after downgrading one level per defaulted factor:
`0 → high`, `1 → medium`, two or more → `low` (never below low). -/
def confidenceOf (defaulted : Nat) : Confidence :=
  if defaulted = 0 then Confidence.high
  else if defaulted = 1 then Confidence.medium
  else Confidence.low

/-- Net market sentiment over the provider data (0 when the news source
is absent). -/
def netOf (pd : ProviderData) : Int :=
  (pd.news.map (fun n => netSentiment n.sentiments)).getD 0

/-- "No activity in the engagement window": no recorded activity at all,
or the last activity predates the outermost engagement band (more than
90 days ago). -/
def noActivityFlag (c : MCustomer) : Bool :=
  match c.lastActivityDays with
  | none => true
  | some days => decide (90 < days)

/-- `compute(customer, providerData)`: factor scores with neutral default
50 for absent sources, weighted overall, trend and confidence.  Ties
between the improving and declining trend conditions resolve to
`stable`. -/
def computeHealth (c : MCustomer) (pd : ProviderData) : HealthScore :=
  let d : ℚ := (pd.whois.map domainScore).getD 50
  let w : ℚ := (pd.website.map websiteScore).getD 50
  let m : ℚ := (pd.news.map marketScore).getD 50
  let e : ℚ :=
    (c.lastActivityDays.map (fun days => engagementScore days c.tier)).getD 50
  let defaulted :=
    (if pd.whois.isNone then 1 else 0) + (if pd.website.isNone then 1 else 0)
    + (if pd.news.isNone then 1 else 0)
    + (if c.lastActivityDays.isNone then 1 else 0)
  let overall : ℚ := (1/4) * d + (1/4) * w + (1/4) * m + (1/4) * e
  let imp : Prop := 80 < overall ∨ 0 < netOf pd
  let dec : Prop := overall < 50 ∨ netOf pd < 0 ∨ noActivityFlag c = true
  let trend : Trend :=
    if imp ∧ dec then Trend.stable
    else if imp then Trend.improving
    else if dec then Trend.declining
    else Trend.stable
  { overall := overall
    trend := trend
    breakdown :=
      { domain := { score := d, weight := 1/4 }
        website := { score := w, weight := 1/4 }
        market := { score := m, weight := 1/4 }
        engagement := { score := e, weight := 1/4 } }
    confidence := confidenceOf defaulted }

/-- A factor whose upstream data is absent is populated with the neutral
default score 50 (never omitted). -/
theorem computeHealth_default_scores (c : MCustomer) (pd : ProviderData) :
    (pd.whois = none → (computeHealth c pd).breakdown.domain.score = 50) ∧
    (pd.website = none →
      (computeHealth c pd).breakdown.website.score = 50) ∧
    (pd.news = none → (computeHealth c pd).breakdown.market.score = 50) ∧
    (c.lastActivityDays = none →
      (computeHealth c pd).breakdown.engagement.score = 50) := by
  refine ⟨?_, ?_, ?_, ?_⟩
  · intro h
    simp [computeHealth, h]
  · intro h
    simp [computeHealth, h]
  · intro h
    simp [computeHealth, h]
  · intro h
    simp [computeHealth, h]

/-- **C4.**  The overall value is the weighted sum of exactly the four
factor scores of the breakdown, each with weight `0.25`, and the four
weights sum to `1`; an unavailable factor is populated with the neutral
default score 50 rather than omitted, so the overall never has fewer
than four contributing factors. -/
theorem computeHealth_weighted_sum (c : MCustomer) (pd : ProviderData) :
    (computeHealth c pd).overall
      = (1/4) * (computeHealth c pd).breakdown.domain.score
        + (1/4) * (computeHealth c pd).breakdown.website.score
        + (1/4) * (computeHealth c pd).breakdown.market.score
        + (1/4) * (computeHealth c pd).breakdown.engagement.score ∧
    (computeHealth c pd).breakdown.domain.weight = 1/4 ∧
    (computeHealth c pd).breakdown.website.weight = 1/4 ∧
    (computeHealth c pd).breakdown.market.weight = 1/4 ∧
    (computeHealth c pd).breakdown.engagement.weight = 1/4 ∧
    (computeHealth c pd).breakdown.domain.weight
      + (computeHealth c pd).breakdown.website.weight
      + (computeHealth c pd).breakdown.market.weight
      + (computeHealth c pd).breakdown.engagement.weight = 1 ∧
    (pd.whois = none → (computeHealth c pd).breakdown.domain.score = 50) ∧
    (pd.website = none →
      (computeHealth c pd).breakdown.website.score = 50) ∧
    (pd.news = none → (computeHealth c pd).breakdown.market.score = 50) ∧
    (c.lastActivityDays = none →
      (computeHealth c pd).breakdown.engagement.score = 50) := by
  obtain ⟨h₁, h₂, h₃, h₄⟩ := computeHealth_default_scores c pd
  exact ⟨rfl, rfl, rfl, rfl, rfl, by simp only [computeHealth]; norm_num,
    h₁, h₂, h₃, h₄⟩

/-- Concrete inputs for the C4 witness: the news source errored, the
rest are live. -/
def customerW : MCustomer :=
  { tier := Tier.growth, lastActivityDays := some 3 }

/-- Provider data with a failed news source for the C4/C5 witnesses. -/
def pdNewsFailed : ProviderData :=
  { whois := some { ageYears := 10, active := true }
    website := some { httpStatus := 200, certValid := some true }
    news := none }

theorem computeHealth_weighted_sum_witness :
    (computeHealth customerW pdNewsFailed).breakdown.market.score = 50 :=
  (computeHealth_weighted_sum customerW pdNewsFailed).2.2.2.2.2.2.2.2.1 rfl

/-- **C5.**  Every factor whose upstream data is absent scores the
neutral default 50, and confidence is `high` lowered one level per
defaulted factor along high → medium → low, never dropping below `low`;
with all four factors live it is `high`. -/
theorem computeHealth_missing_data_confidence (c : MCustomer)
    (pd : ProviderData) :
    (pd.whois = none → (computeHealth c pd).breakdown.domain.score = 50) ∧
    (pd.website = none →
      (computeHealth c pd).breakdown.website.score = 50) ∧
    (pd.news = none → (computeHealth c pd).breakdown.market.score = 50) ∧
    (c.lastActivityDays = none →
      (computeHealth c pd).breakdown.engagement.score = 50) ∧
    (computeHealth c pd).confidence
      = confidenceOf
          ((if pd.whois.isNone then 1 else 0)
            + (if pd.website.isNone then 1 else 0)
            + (if pd.news.isNone then 1 else 0)
            + (if c.lastActivityDays.isNone then 1 else 0)) ∧
    confidenceOf 0 = Confidence.high ∧
    confidenceOf 1 = Confidence.medium ∧
    confidenceOf 2 = Confidence.low ∧
    confidenceOf 3 = Confidence.low ∧
    confidenceOf 4 = Confidence.low ∧
    (pd.whois.isSome → pd.website.isSome → pd.news.isSome →
      c.lastActivityDays.isSome →
      (computeHealth c pd).confidence = Confidence.high) := by
  obtain ⟨h₁, h₂, h₃, h₄⟩ := computeHealth_default_scores c pd
  refine ⟨h₁, h₂, h₃, h₄, rfl, rfl, rfl, rfl, rfl, rfl, ?_⟩
  intro hw hs hn ha
  simp only [computeHealth, Option.isNone_iff_eq_none]
  rw [Option.isSome_iff_exists] at hw hs hn ha
  obtain ⟨_, hw⟩ := hw
  obtain ⟨_, hs⟩ := hs
  obtain ⟨_, hn⟩ := hn
  obtain ⟨_, ha⟩ := ha
  simp [hw, hs, hn, ha, confidenceOf]

theorem computeHealth_missing_data_confidence_witness :
    (computeHealth customerW pdNewsFailed).breakdown.market.score = 50 ∧
    (computeHealth customerW
        { pdNewsFailed with
            news := some { sentiments := [Sentiment.positive] } }).confidence
      = Confidence.high :=
  ⟨(computeHealth_missing_data_confidence customerW pdNewsFailed).2.2.1 rfl,
   (computeHealth_missing_data_confidence customerW
      { pdNewsFailed with
          news := some { sentiments := [Sentiment.positive] } }).2.2.2.2.2.2.2.2.2.2
     rfl rfl rfl rfl⟩

/-- **C6.**  The trend is `improving` when the overall exceeds 80 or
market sentiment is net positive (and no declining condition holds);
`declining` when the overall is below 50, sentiment is net negative, or
there was no activity in the engagement window (and no improving
condition holds); `stable` otherwise — and whenever the improving and
declining conditions hold simultaneously, the tie resolves to
`stable`. -/
theorem computeHealth_trend (c : MCustomer) (pd : ProviderData) :
    (((80 < (computeHealth c pd).overall ∨ 0 < netOf pd) ∧
        ¬((computeHealth c pd).overall < 50 ∨ netOf pd < 0 ∨
          noActivityFlag c = true)) →
      (computeHealth c pd).trend = Trend.improving) ∧
    ((((computeHealth c pd).overall < 50 ∨ netOf pd < 0 ∨
          noActivityFlag c = true) ∧
        ¬(80 < (computeHealth c pd).overall ∨ 0 < netOf pd)) →
      (computeHealth c pd).trend = Trend.declining) ∧
    (((80 < (computeHealth c pd).overall ∨ 0 < netOf pd) ∧
        ((computeHealth c pd).overall < 50 ∨ netOf pd < 0 ∨
          noActivityFlag c = true)) →
      (computeHealth c pd).trend = Trend.stable) ∧
    ((¬(80 < (computeHealth c pd).overall ∨ 0 < netOf pd) ∧
        ¬((computeHealth c pd).overall < 50 ∨ netOf pd < 0 ∨
          noActivityFlag c = true)) →
      (computeHealth c pd).trend = Trend.stable) := by
  simp only [computeHealth]
  refine ⟨?_, ?_, ?_, ?_⟩
  · rintro ⟨himp, hdec⟩
    rw [if_neg (fun h => hdec h.2), if_pos himp]
  · rintro ⟨hdec, himp⟩
    rw [if_neg (fun h => himp h.1), if_neg himp, if_pos hdec]
  · rintro ⟨himp, hdec⟩
    rw [if_pos ⟨himp, hdec⟩]
  · rintro ⟨himp, hdec⟩
    rw [if_neg (fun h => himp h.1), if_neg himp, if_neg hdec]

/-- Customer for the C6 witness: stale activity (declining condition)
combined with net-positive sentiment (improving condition). -/
def customerTie : MCustomer :=
  { tier := Tier.growth, lastActivityDays := some 120 }

/-- Provider data for the C6 witness: only a net-positive news source. -/
def pdTie : ProviderData :=
  { whois := none
    website := none
    news := some { sentiments := [Sentiment.positive, Sentiment.positive] } }

theorem computeHealth_trend_witness :
    (computeHealth customerTie pdTie).trend = Trend.stable :=
  (computeHealth_trend customerTie pdTie).2.2.1
    ⟨Or.inr (by decide), Or.inr (Or.inr (by decide))⟩

/-! ## IntelligenceOrchestrator

Modelled from the spec: `IntelligenceOrchestrator.assess` — the
orchestrator has no implementation file in the repository (the workshop
material describes fan-out over the providers and the
"always return a snapshot" failure contract).  Each provider outcome is
the already-settled result of the gateway call (after the gateway's own
bounded retries): `Except.error` is a provider that failed, `Except.ok`
one that succeeded.  `assess` is modelled into `Except` so that "never
throws a provider error" is itself a theorem rather than a typing
accident. -/

/-- The gateway's normalized error shape. -/
structure NormalizedError where
  kind : String
  message : String
  retriable : Bool
  deriving DecidableEq

/-- Per-provider fetch status recorded in the snapshot. -/
inductive ProviderStatus where
  | success
  | degraded
  | failed
  deriving DecidableEq

/-- The settled outcomes of the fan-out calls for one assessment. -/
structure Outcomes where
  whois : Except NormalizedError WhoisData
  website : Except NormalizedError WebsiteData
  news : Except NormalizedError NewsData

/-- The snapshot's status entry for one settled gateway call. -/
def statusOf {α : Type _} : Except NormalizedError α → ProviderStatus
  | Except.ok _ => ProviderStatus.success
  | Except.error _ => ProviderStatus.failed

/-- The engine's sole output: health score, per-provider status,
assembly timestamp. -/
structure IntelligenceSnapshot where
  health : HealthScore
  whoisStatus : ProviderStatus
  websiteStatus : ProviderStatus
  newsStatus : ProviderStatus
  assembledAt : Nat

/-- `assess(customer)` after all fan-out calls have settled: normalize
failed outcomes to absent data, score, and assemble the snapshot.  The
`Except` codomain models the JavaScript ability to throw to the caller;
`assess` always takes the `Except.ok` branch. -/
def assess (c : MCustomer) (o : Outcomes) (now : Nat) :
    Except NormalizedError IntelligenceSnapshot :=
  Except.ok
    { health := computeHealth c
        { whois := o.whois.toOption
          website := o.website.toOption
          news := o.news.toOption }
      whoisStatus := statusOf o.whois
      websiteStatus := statusOf o.website
      newsStatus := statusOf o.news
      assembledAt := now }

/-- **C1.**  Whenever at least one provider call has failed after the
gateway's retries, `assess` still returns a complete snapshot: no
provider error is thrown to the caller, every failed provider is marked
`failed` in the snapshot (and every successful one `success`), and the
health-score factor backed by a failed provider falls back to its
neutral default of 50. -/
theorem assess_absorbs_provider_failures (c : MCustomer) (o : Outcomes)
    (now : Nat)
    (hfail : o.whois.isOk = false ∨ o.website.isOk = false ∨
      o.news.isOk = false) :
    ∃ s, assess c o now = Except.ok s ∧
      (∀ e, o.whois = Except.error e → s.whoisStatus = ProviderStatus.failed
        ∧ s.health.breakdown.domain.score = 50) ∧
      (∀ e, o.website = Except.error e →
        s.websiteStatus = ProviderStatus.failed ∧
        s.health.breakdown.website.score = 50) ∧
      (∀ e, o.news = Except.error e → s.newsStatus = ProviderStatus.failed
        ∧ s.health.breakdown.market.score = 50) ∧
      (∀ w, o.whois = Except.ok w →
        s.whoisStatus = ProviderStatus.success) ∧
      (∀ w, o.website = Except.ok w →
        s.websiteStatus = ProviderStatus.success) ∧
      (∀ n, o.news = Except.ok n →
        s.newsStatus = ProviderStatus.success) := by
  refine ⟨_, rfl, ?_, ?_, ?_, ?_, ?_, ?_⟩
  · intro e he
    constructor
    · simp [statusOf, he]
    · simp [computeHealth, he, Except.toOption]
  · intro e he
    constructor
    · simp [statusOf, he]
    · simp [computeHealth, he, Except.toOption]
  · intro e he
    constructor
    · simp [statusOf, he]
    · simp [computeHealth, he, Except.toOption]
  · intro w hw
    simp [statusOf, hw]
  · intro w hw
    simp [statusOf, hw]
  · intro n hn
    simp [statusOf, hn]

/-- Outcomes for the C1 witness: the news provider failed after retries,
the other providers succeeded. -/
def outcomesNewsFailed : Outcomes :=
  { whois := Except.ok { ageYears := 10, active := true }
    website := Except.ok { httpStatus := 200, certValid := some true }
    news := Except.error
      { kind := "ProviderUnavailable"
        message := "news fetch failed after retries"
        retriable := true } }

theorem assess_absorbs_provider_failures_witness :
    ∃ s, assess customerW outcomesNewsFailed 1000 = Except.ok s ∧
      (∀ e, outcomesNewsFailed.whois = Except.error e →
        s.whoisStatus = ProviderStatus.failed
        ∧ s.health.breakdown.domain.score = 50) ∧
      (∀ e, outcomesNewsFailed.website = Except.error e →
        s.websiteStatus = ProviderStatus.failed ∧
        s.health.breakdown.website.score = 50) ∧
      (∀ e, outcomesNewsFailed.news = Except.error e →
        s.newsStatus = ProviderStatus.failed
        ∧ s.health.breakdown.market.score = 50) ∧
      (∀ w, outcomesNewsFailed.whois = Except.ok w →
        s.whoisStatus = ProviderStatus.success) ∧
      (∀ w, outcomesNewsFailed.website = Except.ok w →
        s.websiteStatus = ProviderStatus.success) ∧
      (∀ n, outcomesNewsFailed.news = Except.ok n →
        s.newsStatus = ProviderStatus.success) :=
  assess_absorbs_provider_failures customerW outcomesNewsFailed 1000
    (Or.inr (Or.inr rfl))

end CustomerIntelligence
